import Mathlib

/-!
Verification development for the incremental Instagram harvest engine
(log_guard.py and id_r3.py).  Python strings are modelled as lists of
characters, datetimes as integers (UTC epoch order), and the filesystem /
network environment as explicit parameters.  Every definition is a direct
transliteration of the corresponding Python function.
-/

/-- Python strings, modelled as lists of characters. -/
abbrev Str := List Char

/-- Characters stripped by Python's str.strip(): space, tab, newline,
carriage return, vertical tab, form feed. -/
def pyIsSpace (c : Char) : Bool :=
  c = ' ' || c = '\t' || c = '\n' || c = '\r' || c = '\x0b' || c = '\x0c'

/-- Python str.strip(): drop whitespace from both ends. -/
def pyStrip (s : Str) : Str :=
  ((s.dropWhile pyIsSpace).reverse.dropWhile pyIsSpace).reverse

/-!  log_guard.py.  The dedup ledger (the set of previously recorded
filenames loaded by _load_logged_filenames) is passed explicitly as a list
of filename strings. -/

/-- log_guard.already_logged_by_basename: the stripped basename, when
nonempty, is tested as a prefix of some recorded filename
(name.startswith(basename)). -/
def already_logged_by_basename (ledger : List Str) (basename : Str) : Bool :=
  let b := pyStrip basename
  if b = [] then false
  else ledger.any fun name => decide (b <+: name)

/-- log_guard.already_logged_by_shortcode: the stripped shortcode, when
nonempty, is tested as a substring of some recorded filename
(token in name). -/
def already_logged_by_shortcode (ledger : List Str) (shortcode : Str) : Bool :=
  let t := pyStrip shortcode
  if t = [] then false
  else ledger.any fun name => decide (t <:+: name)

/-- log_guard.already_logged_post: either signal suffices. -/
def already_logged_post (ledger : List Str) (basename shortcode : Str) : Bool :=
  already_logged_by_basename ledger basename ||
  already_logged_by_shortcode ledger shortcode

/-!  Identity ordering.  id_r3 compares identities
ident = (ts_iso, shortcode) with Python tuple-of-strings comparison:
lexicographic by code points on the first component, then the second. -/

/-- Python string comparison by unicode code points, as an Ordering. -/
def listCmp : Str → Str → Ordering
  | [], [] => .eq
  | [], _ :: _ => .lt
  | _ :: _, [] => .gt
  | a :: as, b :: bs =>
    if a.toNat < b.toNat then .lt
    else if b.toNat < a.toNat then .gt
    else listCmp as bs

/-- A marker / post identity: the pair (ts_iso, shortcode). -/
abbrev Ident := Str × Str

/-- Python tuple comparison on (ts, shortcode) pairs. -/
def identCmp (x y : Ident) : Ordering :=
  match listCmp x.1 y.1 with
  | .eq => listCmp x.2 y.2
  | o => o

/-- Python x < y on identity tuples. -/
def identLtB (x y : Ident) : Bool :=
  match identCmp x y with
  | .lt => true
  | _ => false

/-- Python x <= y on identity tuples. -/
def identLeB (x y : Ident) : Bool :=
  match identCmp x y with
  | .gt => false
  | _ => true

/-!  Marker persistence (load_marker / save_marker).  The metadata
directory is modelled as a map from stream name to the JSON record
currently stored in latest_seen_(stream).json; a field that json.dump
did not write, or that an externally written file lacks, is none. -/

/-- The parsed content of a latest_seen_(stream).json file. -/
structure MarkerJson where
  ts : Option Str
  shortcode : Option Str
deriving DecidableEq

/-- The marker files of one profile's metadata directory, keyed by stream. -/
abbrev MarkerStore := String → Option MarkerJson

/-- Python x or "" for an optional string. -/
def pyOrEmpty (o : Option Str) : Str :=
  match o with
  | none => []
  | some s => s

/-- id_r3.load_marker: read the stream's marker file; None when the file
is missing or its ts field is absent or empty; the shortcode defaults
to the empty string. -/
def load_marker (fs : MarkerStore) (stream : String) : Option Ident :=
  match fs stream with
  | none => none
  | some j =>
    match j.ts with
    | none => none
    | some ts => if ts = [] then none else some (ts, pyOrEmpty j.shortcode)

/-- id_r3.save_marker: overwrite the stream's marker file with
ts and (shortcode or ""). -/
def save_marker (fs : MarkerStore) (stream : String) (ts : Str)
    (shortcode : Option Str) : MarkerStore :=
  fun s => if s = stream then some ⟨some ts, some (pyOrEmpty shortcode)⟩ else fs s

/-!  Configuration constants of id_r3.py. -/

def BACKOFF_BASE_SEC : Nat := 120
def BACKOFF_CAP_SEC : Nat := 480
def MAX_RETRIES_PROFILE : Nat := 6
def MAX_RETRIES_POST : Nat := 2
def CONSEC_SEEN_STOP : Nat := 8

/-- The delay slept by id_r3.safe_sleep_backoff for a given attempt:
min(BACKOFF_BASE_SEC * 2 ** max(0, attempt - 1), BACKOFF_CAP_SEC). -/
def safe_sleep_backoff_delay (attempt : Nat) : Nat :=
  min (BACKOFF_BASE_SEC * 2 ^ (max 0 (attempt - 1))) BACKOFF_CAP_SEC

/-- The (base seconds, cap seconds) pair that safe_sleep_backoff reads when
called from the per-post retry loop in download_one_post: the module
globals BACKOFF_BASE_SEC and BACKOFF_CAP_SEC. -/
def postBackoffPair : Nat × Nat := (BACKOFF_BASE_SEC, BACKOFF_CAP_SEC)

/-- The (base seconds, cap seconds) pair that safe_sleep_backoff reads when
called from the per-profile retry loop in process_profile: the same module
globals BACKOFF_BASE_SEC and BACKOFF_CAP_SEC. -/
def profileBackoffPair : Nat × Nat := (BACKOFF_BASE_SEC, BACKOFF_CAP_SEC)

/-!  Date-window filter (id_r3.post_passes_date_filter).  Datetimes are
modelled as integers in UTC order; the globals DATE_AFTER_UTC and
DATE_BEFORE_UTC are passed as optional bounds, post.date_utc as an
optional timestamp. -/

/-- id_r3.post_passes_date_filter: pass when no bound is configured or the
post has no timestamp; otherwise reject when pdt <= after or pdt >= before. -/
def post_passes_date_filter (after? before? : Option Int) (pdt? : Option Int) : Bool :=
  if after?.isNone && before?.isNone then true
  else
    match pdt? with
    | none => true
    | some pdt =>
      if (match after? with | some a => decide (pdt ≤ a) | none => false) then false
      else if (match before? with | some b => decide (b ≤ pdt) | none => false) then false
      else true

/-!  Session rotation (id_r3.SessionManager).  Only the credential count
matters for rotate_on_error. -/

/-- SessionManager.rotate_on_error: returns False when at most one
credential is configured, otherwise rotates and returns True. -/
def rotate_on_error (numSessions : Nat) : Bool :=
  if numSessions ≤ 1 then false else true

/-!  Per-post download with bounded retries (id_r3.download_one_post).
The outside world is an oracle giving, per attempt number, what
L.download_post does: success, a HARD_ROTATE_ERRORS exception, or another
exception.  For errors, serverErr says whether the 500 / BadResponse text
test matches, and fallbackOk whether try_fallback_video() returns True. -/

/-- Outcome of one attempt of L.download_post inside download_one_post. -/
inductive FetchOutcome where
  | success
  | hardError (serverErr : Bool) (fallbackOk : Bool)
  | softError (serverErr : Bool) (fallbackOk : Bool)
deriving DecidableEq

/-- Result of download_one_post: ok is none when the Python function falls
off the end of its for loop (returning None), some b for return (b, _);
attemptsMade counts iterations entered; backoffs lists the delays slept. -/
structure DlResult where
  ok : Option Bool
  attemptsMade : Nat
  backoffs : List Nat
deriving DecidableEq

/-- The retry for-loop of download_one_post over the remaining attempt
numbers (Python: for attempt in range(1, MAX_RETRIES_POST + 1)). -/
def postAttemptLoop (numSessions : Nat) (outcome : Nat → FetchOutcome) :
    List Nat → List Nat → Nat → DlResult
  | [], bfs, nAtt => ⟨none, nAtt, bfs.reverse⟩
  | a :: rest, bfs, nAtt =>
    match outcome a with
    | .success => ⟨some true, nAtt + 1, bfs.reverse⟩
    | .hardError serverErr fallbackOk =>
      if serverErr && fallbackOk then ⟨some true, nAtt + 1, bfs.reverse⟩
      else if rotate_on_error numSessions then
        postAttemptLoop numSessions outcome rest
          (safe_sleep_backoff_delay (min a 3) :: bfs) (nAtt + 1)
      else if a < MAX_RETRIES_POST then
        postAttemptLoop numSessions outcome rest
          (safe_sleep_backoff_delay a :: bfs) (nAtt + 1)
      else ⟨some false, nAtt + 1, bfs.reverse⟩
    | .softError serverErr fallbackOk =>
      if serverErr && fallbackOk then ⟨some true, nAtt + 1, bfs.reverse⟩
      else if a < MAX_RETRIES_POST then
        postAttemptLoop numSessions outcome rest
          (safe_sleep_backoff_delay a :: bfs) (nAtt + 1)
      else ⟨some false, nAtt + 1, bfs.reverse⟩

/-- id_r3.download_one_post, abstracted over the attempt outcomes. -/
def download_one_post (numSessions : Nat) (outcome : Nat → FetchOutcome) : DlResult :=
  postAttemptLoop numSessions outcome (List.range' 1 MAX_RETRIES_POST) [] 0

/-!  The marker-driven iterator (id_r3.download_posts_iter).  A post is
abstracted to the data the loop reads from it: its optional date_utc (for
the date filter), the identifiers produced by get_post_identifiers, and
the environment oracles already_logged_wrapper, any_media_exists_for_post
and download_one_post are supplied as per-post functions. -/

/-- The data download_posts_iter reads from one post. -/
structure Post where
  date : Option Int
  tsIso : Str
  shortcode : Str
  basename : Str
deriving DecidableEq

/-- ident_tuple(ts_iso, shortcode) for a post (both components already
default to the empty string in get_post_identifiers). -/
def identOf (p : Post) : Ident := (p.tsIso, p.shortcode)

/-- The ambient run context of download_posts_iter: CURRENT_MODE, the date
window, and the per-post outcomes of the guards and of the downloader. -/
structure Env where
  mode : String
  dateAfter : Option Int
  dateBefore : Option Int
  logged : Post → Bool
  mediaExists : Post → Bool
  dlOk : Post → Bool
  dlRescued : Post → Nat

/-- The loop state of download_posts_iter.  scanned counts loop iterations
entered and attempted records the posts passed to download_one_post; both
are observation fields with no influence on control flow. -/
structure IterState where
  count : Nat
  rescuedTotal : Nat
  downloadedThisRun : Nat
  consecSeen : Nat
  maxSeen : Option Ident
  topIdentSeen : Option Ident
  scanned : Nat
  attempted : List Post
deriving DecidableEq

/-- The marker-based boundary block of download_posts_iter (the
"if is_daily and marker is not None" block).  Returns the updated state
and whether the loop breaks. -/
def boundaryStep (isDaily : Bool) (marker : Option Ident) (st : IterState)
    (ident : Ident) : IterState × Bool :=
  if isDaily then
    match marker with
    | some m =>
      if identLeB ident m then
        if 0 < st.downloadedThisRun then (st, true)
        else if CONSEC_SEEN_STOP ≤ st.consecSeen + 1 then
          ({ st with consecSeen := st.consecSeen + 1 }, true)
        else ({ st with consecSeen := st.consecSeen + 1 }, false)
      else ({ st with consecSeen := 0 }, false)
    | none => (st, false)
  else (st, false)

/-- The shared streak bump of the already-logged and media-exists guards
("if is_daily and downloaded_this_run == 0"): bump the streak and break at
the threshold, otherwise continue to the next post. -/
def seenGuardStep (isDaily : Bool) (st : IterState) : IterState × Bool :=
  if isDaily && decide (st.downloadedThisRun = 0) then
    if CONSEC_SEEN_STOP ≤ st.consecSeen + 1 then
      ({ st with consecSeen := st.consecSeen + 1 }, true)
    else ({ st with consecSeen := st.consecSeen + 1 }, false)
  else (st, false)

/-- One iteration of the body of download_posts_iter for one post.
Returns the updated state and whether the loop breaks. -/
def processPost (env : Env) (marker : Option Ident) (st : IterState)
    (post : Post) : IterState × Bool :=
  let st := { st with scanned := st.scanned + 1 }
  if !post_passes_date_filter env.dateAfter env.dateBefore post.date then
    (st, false)
  else
    let ident := identOf post
    let st := { st with topIdentSeen :=
      match st.topIdentSeen with
      | none => some ident
      | some t => if identLtB t ident then some ident else some t }
    let isDaily : Bool := env.mode = "daily"
    match boundaryStep isDaily marker st ident with
    | (st, true) => (st, true)
    | (st, false) =>
      if env.logged post then seenGuardStep isDaily st
      else if env.mediaExists post then seenGuardStep isDaily st
      else
        let st := { st with attempted := st.attempted ++ [post] }
        if env.dlOk post then
          ({ st with
              count := st.count + 1,
              rescuedTotal := st.rescuedTotal + env.dlRescued post,
              downloadedThisRun := st.downloadedThisRun + 1,
              consecSeen := 0,
              maxSeen :=
                match st.maxSeen with
                | none => some ident
                | some ms => if identLtB ms ident then some ident else some ms },
            false)
        else (st, false)

/-- The for-loop of download_posts_iter over the (newest-first) post
sequence, stopping early on break. -/
def iterGo (env : Env) (marker : Option Ident) :
    List Post → IterState → IterState
  | [], st => st
  | p :: ps, st =>
    match processPost env marker st p with
    | (st', true) => st'
    | (st', false) => iterGo env marker ps st'

/-- stream = "feed" if kind == "feed" else ("reels" if kind == "reels"
else kind). -/
def streamOfKind (kind : String) : String :=
  if kind = "feed" then "feed" else if kind = "reels" then "reels" else kind

/-- Initial loop state: max_seen starts at the loaded marker, everything
else empty. -/
def initState (marker : Option Ident) : IterState :=
  ⟨0, 0, 0, 0, marker, none, 0, []⟩

/-- The elif arm of the marker-persist block: seed from top_ident_seen when
no marker existed and nothing was downloaded. -/
def persistSeed (fs : MarkerStore) (stream : String) (marker : Option Ident)
    (st : IterState) : MarkerStore :=
  match marker, st.topIdentSeen with
  | none, some t =>
    if st.downloadedThisRun = 0 then save_marker fs stream t.1 (some t.2) else fs
  | _, _ => fs

/-- The test "marker is None or max_seen > marker" of the marker-persist
block. -/
def markerAdvanced (marker : Option Ident) (ms : Ident) : Bool :=
  match marker with
  | none => true
  | some m => identLtB m ms

/-- The marker-persist block at the end of download_posts_iter: in daily or
all mode, persist max_seen when it advanced via downloads, else possibly
seed from enumeration; in any other mode leave the store untouched. -/
def persistMarker (mode : String) (fs : MarkerStore) (stream : String)
    (marker : Option Ident) (st : IterState) : MarkerStore :=
  if mode = "daily" ∨ mode = "all" then
    match st.maxSeen with
    | some ms =>
      if markerAdvanced marker ms && decide (0 < st.downloadedThisRun) then
        save_marker fs stream ms.1 (some ms.2)
      else persistSeed fs stream marker st
    | none => persistSeed fs stream marker st
  else fs

/-- id_r3.download_posts_iter: load the marker, run the loop, persist the
marker; returns the final loop state and the updated marker store. -/
def download_posts_run (env : Env) (fs : MarkerStore) (kind : String)
    (posts : List Post) : IterState × MarkerStore :=
  let stream := streamOfKind kind
  let marker := load_marker fs stream
  let st := iterGo env marker posts (initState marker)
  (st, persistMarker env.mode fs stream marker st)

/-- The (count, rescued_total) value returned by download_posts_iter. -/
def download_posts_iter (env : Env) (fs : MarkerStore) (kind : String)
    (posts : List Post) : Nat × Nat :=
  let r := download_posts_run env fs kind posts
  (r.1.count, r.1.rescuedTotal)

/-- The marker-independent observables of a loop state: everything except
max_seen (which is initialized from the marker but only read back by the
daily/all persist step). -/
def coreView (st : IterState) :
    Nat × Nat × Nat × Nat × Option Ident × Nat × List Post :=
  (st.count, st.rescuedTotal, st.downloadedThisRun, st.consecSeen,
   st.topIdentSeen, st.scanned, st.attempted)

/-!  Seeding a marker from disk (id_r3.find_newest_from_disk and the
probe-blocked branch of process_profile).  Each metadata JSON file on disk
is abstracted to the identity derivable from it: some (ts, shortcode) when
the file yields a parseable timestamp (always a nonempty isoformat string),
none when the file is skipped. -/

/-- The for-loop of find_newest_from_disk: keep the running maximum
(newest is None or ident > newest). -/
def find_newest_go (newest : Option Ident) : List (Option Ident) → Option Ident
  | [] => newest
  | e :: rest =>
    let newest' :=
      match e with
      | none => newest
      | some ident =>
        match newest with
        | none => some ident
        | some n => if identLtB n ident then some ident else newest
    find_newest_go newest' rest

/-- id_r3.find_newest_from_disk over the abstracted metadata entries. -/
def find_newest_from_disk (entries : List (Option Ident)) : Option Ident :=
  find_newest_go none entries

/-- The FEED block of id_r3.process_profile: if the bounded probe
succeeded, run download_posts_iter (the returned flag records that a fetch
of the stream was performed); if it failed, seed the marker from disk only
when no marker exists, and perform no fetch. -/
def process_profile_feed (env : Env) (fs : MarkerStore) (probeOk : Bool)
    (diskEntries : List (Option Ident)) (posts : List Post) :
    MarkerStore × Bool :=
  if probeOk then ((download_posts_run env fs "feed" posts).2, true)
  else
    match load_marker fs "feed" with
    | none =>
      match find_newest_from_disk diskEntries with
      | some d => (save_marker fs "feed" d.1 (some d.2), false)
      | none => (fs, false)
    | some _ => (fs, false)

/-!  Concrete instances used by the testable-property scenarios. -/

/-- Ledger of the no-duplicate-re-fetch scenario. -/
def ledgerC1 : List Str := ["2024-01-01_00-00-00_UTC.jpg".toList]

def basenameC1 : Str := "2024-01-01_00-00-00_UTC".toList

def shortcodeC1 : Str := "Cab123".toList

/-- A post whose canonical basename matches the ledger entry. -/
def postC1 : Post := ⟨none, "2024-01-01".toList, shortcodeC1, basenameC1⟩

/-- A metadata directory with no marker files. -/
def fsEmpty : MarkerStore := fun _ => none

/-- Daily-mode environment whose already-logged oracle is the dedup ledger
lookup over ledgerC1, with an empty disk and a working downloader. -/
def envC1 : Env :=
  ⟨"daily", none, none,
   fun p => already_logged_post ledgerC1 p.basename p.shortcode,
   fun _ => false, fun _ => true, fun _ => 0⟩

def tsMarker : Str := "2024-06".toList

def scMarker : Str := "abc".toList

/-- The boundary marker (T, "abc") of the early-stop scenarios. -/
def markerIdent : Ident := (tsMarker, scMarker)

/-- A metadata directory holding that marker for the feed stream. -/
def fsMarker : MarkerStore :=
  fun s => if s = "feed" then some ⟨some tsMarker, some scMarker⟩ else none

/-- A post older than the marker. -/
def postOld : Post := ⟨none, "2024-01".toList, "old".toList, "oldbn".toList⟩

/-- A post newer than the marker. -/
def postNew : Post := ⟨none, "2024-12".toList, "new".toList, "newbn".toList⟩

/-- Ten old items, newest first, none of which will be downloaded. -/
def postsC3 : List Post := List.replicate 10 postOld

/-- Daily-mode environment where every guard misses and every download
fails, so nothing is newly downloaded. -/
def envNoDl : Env :=
  ⟨"daily", none, none, fun _ => false, fun _ => false, fun _ => false, fun _ => 0⟩

/-- Daily-mode environment where every download succeeds. -/
def envDlOk : Env :=
  ⟨"daily", none, none, fun _ => false, fun _ => false, fun _ => true, fun _ => 0⟩

/-- One new item followed by old items. -/
def postsC4 : List Post := [postNew, postOld, postOld, postOld]

/-- A loop state in which one item has already been downloaded this run. -/
def stC4 : IterState := ⟨1, 0, 1, 0, none, none, 1, []⟩

/-- Bulk (init) mode environment. -/
def envInit : Env :=
  ⟨"init", none, none, fun _ => false, fun _ => false, fun _ => true, fun _ => 0⟩

/-- Attempt outcomes where every download_post call raises a hard-rotate
error that is not a 500-class response. -/
def outcomeHard : Nat → FetchOutcome := fun _ => .hardError false false

/-- On-disk metadata entries for the seed-from-disk scenario. -/
def entriesC9 : List (Option Ident) :=
  [none, some ("2024-03".toList, "zzz".toList), some ("2024-02".toList, "aaa".toList)]

def identC9 : Ident := ("2024-03".toList, "zzz".toList)

/-!  Order-theoretic facts about the Python string / tuple comparison. -/

theorem listCmp_self (l : Str) : listCmp l l = .eq := by
  induction l with
  | nil => rfl
  | cons a as ih => simp [listCmp, ih]

theorem listCmp_nil_gt (l : Str) (h : l ≠ []) : listCmp l [] = .gt := by
  cases l with
  | nil => exact absurd rfl h
  | cons a as => rfl

theorem listCmp_eq_symm : ∀ (a b : Str), listCmp a b = .eq → listCmp b a = .eq := by
  intro a
  induction a with
  | nil =>
    intro b h
    cases b with
    | nil => rfl
    | cons y ys => simp [listCmp] at h
  | cons x xs ih =>
    intro b h
    cases b with
    | nil => simp [listCmp] at h
    | cons y ys =>
      simp only [listCmp] at h ⊢
      by_cases h1 : x.toNat < y.toNat
      · simp [h1] at h
      · by_cases h2 : y.toNat < x.toNat
        · simp [h1, h2] at h
        · simp only [if_neg h1, if_neg h2] at h ⊢
          exact ih ys h

theorem listCmp_congr_left : ∀ (a b : Str), listCmp a b = .eq →
    ∀ c, listCmp a c = listCmp b c := by
  intro a
  induction a with
  | nil =>
    intro b h c
    cases b with
    | nil => rfl
    | cons y ys => simp [listCmp] at h
  | cons x xs ih =>
    intro b h c
    cases b with
    | nil => simp [listCmp] at h
    | cons y ys =>
      simp only [listCmp] at h
      by_cases h1 : x.toNat < y.toNat
      · simp [h1] at h
      · by_cases h2 : y.toNat < x.toNat
        · simp [h1, h2] at h
        · simp only [if_neg h1, if_neg h2] at h
          have hxy : x.toNat = y.toNat := by omega
          cases c with
          | nil => rfl
          | cons z zs => simp only [listCmp, hxy, ih ys h zs]

theorem listCmp_congr_right : ∀ (b c : Str), listCmp b c = .eq →
    ∀ a, listCmp a b = listCmp a c := by
  intro b
  induction b with
  | nil =>
    intro c h a
    cases c with
    | nil => rfl
    | cons z zs => simp [listCmp] at h
  | cons y ys ih =>
    intro c h a
    cases c with
    | nil => simp [listCmp] at h
    | cons z zs =>
      simp only [listCmp] at h
      by_cases h1 : y.toNat < z.toNat
      · simp [h1] at h
      · by_cases h2 : z.toNat < y.toNat
        · simp [h1, h2] at h
        · simp only [if_neg h1, if_neg h2] at h
          have hyz : y.toNat = z.toNat := by omega
          cases a with
          | nil => rfl
          | cons w ws => simp only [listCmp, hyz, ih zs h ws]

theorem listCmp_gt_iff : ∀ (a b : Str), listCmp a b = .gt ↔ listCmp b a = .lt := by
  intro a
  induction a with
  | nil =>
    intro b
    cases b with
    | nil => simp [listCmp]
    | cons y ys => simp [listCmp]
  | cons x xs ih =>
    intro b
    cases b with
    | nil => simp [listCmp]
    | cons y ys =>
      simp only [listCmp]
      by_cases h1 : x.toNat < y.toNat
      · have h2 : ¬ y.toNat < x.toNat := by omega
        simp [h1, h2]
      · by_cases h2 : y.toNat < x.toNat
        · simp [h1, h2]
        · simp only [if_neg h1, if_neg h2]
          exact ih ys

theorem listCmp_lt_trans : ∀ (a b c : Str),
    listCmp a b = .lt → listCmp b c = .lt → listCmp a c = .lt := by
  intro a
  induction a with
  | nil =>
    intro b c hab hbc
    cases b with
    | nil => simp [listCmp] at hab
    | cons y ys =>
      cases c with
      | nil => simp [listCmp] at hbc
      | cons z zs => rfl
  | cons x xs ih =>
    intro b c hab hbc
    cases b with
    | nil => simp [listCmp] at hab
    | cons y ys =>
      cases c with
      | nil => simp [listCmp] at hbc
      | cons z zs =>
        simp only [listCmp] at hab hbc ⊢
        by_cases h1 : x.toNat < y.toNat
        · by_cases h2 : y.toNat < z.toNat
          · have : x.toNat < z.toNat := by omega
            simp [this]
          · by_cases h3 : z.toNat < y.toNat
            · simp [h2, h3] at hbc
            · have hyz : y.toNat = z.toNat := by omega
              have : x.toNat < z.toNat := by omega
              simp [this]
        · by_cases h2 : y.toNat < x.toNat
          · simp [h1, h2] at hab
          · have hxy : x.toNat = y.toNat := by omega
            simp only [if_neg h1, if_neg h2] at hab
            by_cases h3 : y.toNat < z.toNat
            · have : x.toNat < z.toNat := by omega
              simp [this]
            · by_cases h4 : z.toNat < y.toNat
              · simp [h3, h4] at hbc
              · have : ¬ x.toNat < z.toNat := by omega
                have : ¬ z.toNat < x.toNat := by omega
                simp only [if_neg ‹¬ x.toNat < z.toNat›, if_neg ‹¬ z.toNat < x.toNat›]
                simp only [if_neg h3, if_neg h4] at hbc
                exact ih ys zs hab hbc

theorem identCmp_self (x : Ident) : identCmp x x = .eq := by
  simp [identCmp, listCmp_self]

theorem identLtB_self (x : Ident) : identLtB x x = false := by
  simp [identLtB, identCmp_self]

theorem identCmp_congr_left {x y : Ident} (h : identCmp x y = .eq) (z : Ident) :
    identCmp x z = identCmp y z := by
  unfold identCmp at h ⊢
  cases h1 : listCmp x.1 y.1 with
  | lt => simp [h1] at h
  | gt => simp [h1] at h
  | eq =>
    rw [h1] at h
    rw [listCmp_congr_left x.1 y.1 h1 z.1]
    cases h2 : listCmp y.1 z.1 with
    | lt => rfl
    | gt => rfl
    | eq => rw [listCmp_congr_left x.2 y.2 h z.2]

theorem identCmp_congr_right {y z : Ident} (h : identCmp y z = .eq) (x : Ident) :
    identCmp x y = identCmp x z := by
  unfold identCmp at h ⊢
  cases h1 : listCmp y.1 z.1 with
  | lt => simp [h1] at h
  | gt => simp [h1] at h
  | eq =>
    rw [h1] at h
    rw [listCmp_congr_right y.1 z.1 h1 x.1]
    cases h2 : listCmp x.1 z.1 with
    | lt => rfl
    | gt => rfl
    | eq => rw [listCmp_congr_right y.2 z.2 h x.2]

theorem identCmp_gt_iff (x y : Ident) : identCmp x y = .gt ↔ identCmp y x = .lt := by
  unfold identCmp
  cases h1 : listCmp x.1 y.1 with
  | lt =>
    have h2 : listCmp y.1 x.1 = .gt := (listCmp_gt_iff y.1 x.1).mpr h1
    simp [h2]
  | gt =>
    have h2 : listCmp y.1 x.1 = .lt := (listCmp_gt_iff x.1 y.1).mp h1
    simp [h2]
  | eq =>
    have h2 : listCmp y.1 x.1 = .eq := listCmp_eq_symm x.1 y.1 h1
    simp [h2]
    exact listCmp_gt_iff x.2 y.2

theorem identCmp_lt_trans {x y z : Ident} (hxy : identCmp x y = .lt)
    (hyz : identCmp y z = .lt) : identCmp x z = .lt := by
  unfold identCmp at hxy hyz ⊢
  cases h1 : listCmp x.1 y.1 with
  | gt => simp [h1] at hxy
  | lt =>
    cases h2 : listCmp y.1 z.1 with
    | gt => simp [h2] at hyz
    | lt => simp [listCmp_lt_trans x.1 y.1 z.1 h1 h2]
    | eq => rw [← listCmp_congr_right y.1 z.1 h2 x.1, h1]
  | eq =>
    rw [h1] at hxy
    cases h2 : listCmp y.1 z.1 with
    | gt => simp [h2] at hyz
    | lt => rw [listCmp_congr_left x.1 y.1 h1 z.1, h2]
    | eq =>
      rw [h2] at hyz
      rw [listCmp_congr_left x.1 y.1 h1 z.1, h2]
      exact listCmp_lt_trans x.2 y.2 z.2 hxy hyz

theorem identLtB_eq_true_iff {x y : Ident} : identLtB x y = true ↔ identCmp x y = .lt := by
  unfold identLtB
  cases h : identCmp x y <;> simp

theorem identLtB_eq_false_iff {x y : Ident} :
    identLtB x y = false ↔ identCmp x y ≠ .lt := by
  unfold identLtB
  cases h : identCmp x y <;> simp

theorem identLtB_trans {x y z : Ident} (h1 : identLtB x y = true)
    (h2 : identLtB y z = true) : identLtB x z = true := by
  rw [identLtB_eq_true_iff] at h1 h2 ⊢
  exact identCmp_lt_trans h1 h2

theorem identNotLt_trans {d n i : Ident} (h1 : identLtB d n = false)
    (h2 : identLtB n i = false) : identLtB d i = false := by
  rw [identLtB_eq_false_iff] at h1 h2 ⊢
  intro hdi
  cases hdn : identCmp d n with
  | lt => exact h1 hdn
  | eq => exact h2 (by rw [← identCmp_congr_left hdn i, hdi])
  | gt =>
    cases hni : identCmp n i with
    | lt => exact h2 hni
    | eq => exact h1 (by rw [identCmp_congr_right hni d, hdi])
    | gt =>
      have hin : identCmp i n = .lt := (identCmp_gt_iff n i).mp hni
      exact h1 (identCmp_lt_trans hdi hin)

theorem identLtB_ts_ne_nil {m x : Ident} (hm : m.1 ≠ [])
    (h : identLtB m x = true) : x.1 ≠ [] := by
  intro hx
  rw [identLtB_eq_true_iff] at h
  unfold identCmp at h
  rw [hx, listCmp_nil_gt m.1 hm] at h
  simp at h

/-!  Marker persistence facts. -/

theorem load_marker_save (fs : MarkerStore) (stream : String) (ts : Str)
    (sc : Option Str) :
    load_marker (save_marker fs stream ts sc) stream =
      if ts = [] then none else some (ts, pyOrEmpty sc) := by
  simp [load_marker, save_marker, pyOrEmpty]

theorem load_marker_ts_ne_nil {fs : MarkerStore} {stream : String} {m : Ident}
    (h : load_marker fs stream = some m) : m.1 ≠ [] := by
  unfold load_marker at h
  split at h
  · simp at h
  · split at h
    · simp at h
    · split at h
      · simp at h
      · rename_i ts hts
        simp only [Option.some.injEq] at h
        rw [← h]
        exact hts

/-!  Structural facts about one loop iteration. -/

theorem boundaryStep_attempted (d : Bool) (m : Option Ident) (st : IterState)
    (i : Ident) : (boundaryStep d m st i).1.attempted = st.attempted := by
  unfold boundaryStep
  repeat' split
  all_goals rfl

theorem seenGuardStep_attempted (d : Bool) (st : IterState) :
    (seenGuardStep d st).1.attempted = st.attempted := by
  unfold seenGuardStep
  repeat' split
  all_goals rfl

theorem processPost_logged_attempted {env : Env} {m : Option Ident}
    {st : IterState} {p : Post} (h : env.logged p = true) :
    (processPost env m st p).1.attempted = st.attempted := by
  simp only [processPost]
  split
  · rfl
  · split
    next st' heq =>
      have h3 := congrArg (fun q => (Prod.fst q).attempted) heq
      simp only at h3
      rw [boundaryStep_attempted] at h3
      rw [← h3]
    next st' heq =>
      rw [seenGuardStep_attempted]
      have h3 := congrArg (fun q => (Prod.fst q).attempted) heq
      simp only at h3
      rw [boundaryStep_attempted] at h3
      rw [← h3]

theorem processPost_core_congr {env : Env} (h : env.mode ≠ "daily")
    {m1 m2 : Option Ident} {st1 st2 : IterState}
    (hc : coreView st1 = coreView st2) (p : Post) :
    coreView (processPost env m1 st1 p).1 = coreView (processPost env m2 st2 p).1 ∧
    (processPost env m1 st1 p).2 = false ∧
    (processPost env m2 st2 p).2 = false := by
  have hd : (decide (env.mode = "daily")) = false := decide_eq_false h
  obtain ⟨c1, r1, d1, cs1, mx1, tp1, sc1, at1⟩ := st1
  obtain ⟨c2, r2, d2, cs2, mx2, tp2, sc2, at2⟩ := st2
  simp only [coreView, Prod.mk.injEq] at hc
  obtain ⟨hcx, hrx, hdx, hcsx, htx, hscx, hax⟩ := hc
  subst hcx; subst hrx; subst hdx; subst hcsx; subst htx; subst hscx; subst hax
  by_cases hf : post_passes_date_filter env.dateAfter env.dateBefore p.date
  · by_cases hl : env.logged p
    · simp [processPost, hf, hl, hd, boundaryStep, seenGuardStep, coreView]
    · by_cases hm : env.mediaExists p
      · simp [processPost, hf, hl, hm, hd, boundaryStep, seenGuardStep, coreView]
      · by_cases hdl : env.dlOk p
        · simp [processPost, hf, hl, hm, hdl, hd, boundaryStep, seenGuardStep,
            coreView]
        · simp [processPost, hf, hl, hm, hdl, hd, boundaryStep, seenGuardStep,
            coreView]
  · simp [processPost, hf, coreView]

theorem processPost_nonDaily_scanned {env : Env} (h : env.mode ≠ "daily")
    (m : Option Ident) (st : IterState) (p : Post) :
    (processPost env m st p).1.scanned = st.scanned + 1 ∧
    (processPost env m st p).2 = false := by
  have hd : (decide (env.mode = "daily")) = false := decide_eq_false h
  by_cases hf : post_passes_date_filter env.dateAfter env.dateBefore p.date
  · by_cases hl : env.logged p
    · simp [processPost, hf, hl, hd, boundaryStep, seenGuardStep]
    · by_cases hm : env.mediaExists p
      · simp [processPost, hf, hl, hm, hd, boundaryStep, seenGuardStep]
      · by_cases hdl : env.dlOk p
        · simp [processPost, hf, hl, hm, hdl, hd, boundaryStep, seenGuardStep]
        · simp [processPost, hf, hl, hm, hdl, hd, boundaryStep, seenGuardStep]
  · simp [processPost, hf]

theorem iterGo_core_congr {env : Env} (h : env.mode ≠ "daily") :
    ∀ (posts : List Post) {m1 m2 : Option Ident} {st1 st2 : IterState},
    coreView st1 = coreView st2 →
    coreView (iterGo env m1 posts st1) = coreView (iterGo env m2 posts st2) := by
  intro posts
  induction posts with
  | nil => intro m1 m2 st1 st2 hc; simpa [iterGo] using hc
  | cons p ps ih =>
    intro m1 m2 st1 st2 hc
    have h3 := @processPost_core_congr env h m1 m2 st1 st2 hc p
    rcases h1 : processPost env m1 st1 p with ⟨sa, ba⟩
    rcases h2 : processPost env m2 st2 p with ⟨sb, bb⟩
    rw [h1, h2] at h3
    obtain ⟨hcore, hba, hbb⟩ := h3
    simp only at hba hbb
    subst hba; subst hbb
    simp only [iterGo, h1, h2]
    exact ih hcore

theorem iterGo_scanned_nonDaily {env : Env} (h : env.mode ≠ "daily") :
    ∀ (posts : List Post) (m : Option Ident) (st : IterState),
    (iterGo env m posts st).scanned = st.scanned + posts.length := by
  intro posts
  induction posts with
  | nil => intro m st; simp [iterGo]
  | cons p ps ih =>
    intro m st
    have h3 := processPost_nonDaily_scanned h m st p
    rcases h1 : processPost env m st p with ⟨sa, ba⟩
    rw [h1] at h3
    obtain ⟨hsc, hba⟩ := h3
    simp only at hsc hba
    subst hba
    simp only [iterGo, h1]
    rw [ih, hsc]
    simp [List.length_cons]
    omega

theorem find_newest_go_spec :
    ∀ (entries : List (Option Ident)) (acc : Option Ident) (d : Ident),
    find_newest_go acc entries = some d →
    (d ∈ entries.filterMap id ∨ acc = some d) ∧
    (∀ y ∈ entries.filterMap id, identLtB d y = false) ∧
    (∀ a, acc = some a → identLtB d a = false) := by
  intro entries
  induction entries with
  | nil =>
    intro acc d h
    simp only [find_newest_go] at h
    refine ⟨Or.inr h, by simp, ?_⟩
    intro a ha
    rw [h] at ha
    obtain rfl : d = a := by simpa using ha
    exact identLtB_self d
  | cons e rest ih =>
    intro acc d h
    simp only [find_newest_go] at h
    cases e with
    | none =>
      obtain ⟨hmem, hmax, hacc⟩ := ih acc d h
      refine ⟨?_, ?_, hacc⟩
      · simpa using hmem
      · simpa using hmax
    | some ident =>
      cases acc with
      | none =>
        obtain ⟨hmem, hmax, hacc⟩ := ih (some ident) d h
        refine ⟨?_, ?_, by simp⟩
        · rcases hmem with hmem | hmem
          · exact Or.inl (by simpa using Or.inr hmem)
          · exact Or.inl (by simp [List.filterMap_cons]; exact Or.inl (by simpa using hmem.symm))
        · intro y hy
          simp only [List.filterMap_cons, id] at hy
          rcases List.mem_cons.mp hy with rfl | hy
          · exact hacc y rfl
          · exact hmax y hy
      | some n =>
        have h' : find_newest_go
            (if identLtB n ident = true then some ident else some n) rest =
            some d := h
        by_cases hlt : identLtB n ident = true
        · rw [if_pos hlt] at h'
          obtain ⟨hmem, hmax, hacc⟩ := ih (some ident) d h' 
          refine ⟨?_, ?_, ?_⟩
          · rcases hmem with hmem | hmem
            · exact Or.inl (by simp [List.filterMap_cons]; exact Or.inr (by simpa using hmem))
            · exact Or.inl (by simp [List.filterMap_cons]; exact Or.inl (by simpa using hmem.symm))
          · intro y hy
            simp only [List.filterMap_cons, id] at hy
            rcases List.mem_cons.mp hy with rfl | hy
            · exact hacc y rfl
            · exact hmax y hy
          · intro a ha
            obtain rfl : n = a := by simpa using ha
            have hdident : identLtB d ident = false := hacc ident rfl
            rw [identLtB_eq_false_iff] at hdident ⊢
            intro hdn
            rw [identLtB_eq_true_iff] at hlt
            exact hdident (identCmp_lt_trans hdn hlt)
        · rw [if_neg hlt] at h'
          obtain ⟨hmem, hmax, hacc⟩ := ih (some n) d h' 
          have hnlt : identLtB n ident = false := by
            cases hni : identLtB n ident
            · rfl
            · exact absurd hni hlt
          refine ⟨?_, ?_, hacc⟩
          · rcases hmem with hmem | hmem
            · exact Or.inl (by simp [List.filterMap_cons]; exact Or.inr (by simpa using hmem))
            · exact Or.inr hmem
          · intro y hy
            simp only [List.filterMap_cons, id] at hy
            rcases List.mem_cons.mp hy with rfl | hy
            · have hdn : identLtB d n = false := hacc n rfl
              exact identNotLt_trans hdn hnlt
            · exact hmax y hy

/-!  Claim theorems. -/

/-- C10: marker round-trip.  For every stream, timestamp string ts and
shortcode value sc, load_marker run directly after
save_marker(meta_dir, stream, ts, sc) returns some (ts, sc') with sc'
equal to sc when sc is a nonempty string and the empty string when sc is
empty or absent, and returns none when ts is the empty string. -/
theorem spec_C10 (fs : MarkerStore) (stream : String) (ts : Str) (sc : Option Str) :
    load_marker (save_marker fs stream ts sc) stream =
      if ts = [] then none else some (ts, pyOrEmpty sc) :=
  load_marker_save fs stream ts sc

/-- C8: strict date-window filter.  A post with a timestamp passes exactly
when its timestamp is strictly after the configured lower bound and
strictly before the configured upper bound (a timestamp equal to a bound
is rejected), and a post without a timestamp always passes. -/
theorem spec_C8 (aft bef : Option Int) (t : Int) :
    (post_passes_date_filter aft bef (some t) =
      ((aft.all fun a => decide (a < t)) && (bef.all fun b => decide (t < b)))) ∧
    post_passes_date_filter aft bef none = true := by
  constructor
  · cases aft with
    | none =>
      cases bef with
      | none => simp [post_passes_date_filter, Option.all]
      | some b =>
        simp only [post_passes_date_filter, Option.all, Option.isNone]
        by_cases hb : b ≤ t
        · simp [hb]
        · simp [hb]
          omega
    | some a =>
      cases bef with
      | none =>
        simp only [post_passes_date_filter, Option.all, Option.isNone]
        by_cases ha : t ≤ a
        · simp [ha]
        · simp [ha]
          omega
      | some b =>
        simp only [post_passes_date_filter, Option.all, Option.isNone]
        by_cases ha : t ≤ a
        · by_cases hb : b ≤ t <;> simp [ha, hb]
        · by_cases hb : b ≤ t
          · simp [ha, hb]
          · simp [ha, hb]
            omega
  · cases aft <;> cases bef <;> simp [post_passes_date_filter]

/-- C6 counterexample: the claim asserts that the (base, cap) backoff pair
used for post-level retries is distinct from the pair used for
profile-level retries, but both call sites of safe_sleep_backoff read the
same module globals, so the two pairs are equal; both are (120, 480). -/
theorem spec_C6_counterexample :
    postBackoffPair = profileBackoffPair ∧ postBackoffPair = (120, 480) :=
  ⟨rfl, rfl⟩

/-- C6 (amended): for every attempt number n at least 1 the retry delay is
min(cap_seconds, base_seconds * 2 ** (n-1)), but post-level and
profile-level retries share one and the same (base, cap) pair
(120, 480) rather than using distinct pairs. -/
theorem spec_C6 (n : Nat) (hn : 1 ≤ n) :
    safe_sleep_backoff_delay n =
      min BACKOFF_CAP_SEC (BACKOFF_BASE_SEC * 2 ^ (n - 1)) ∧
    postBackoffPair = profileBackoffPair ∧
    postBackoffPair = (120, 480) := by
  refine ⟨?_, rfl, rfl⟩
  simp [safe_sleep_backoff_delay, Nat.zero_max, Nat.min_comm]

/-- C6 witness: the amended formula evaluated at attempt 3. -/
theorem spec_C6_witness :
    safe_sleep_backoff_delay 3 =
      min BACKOFF_CAP_SEC (BACKOFF_BASE_SEC * 2 ^ 2) :=
  (spec_C6 3 (by decide)).1

/-- C5: with exactly one credential, rotate_on_error returns false (and it
returns true whenever more than one credential is configured); with a
single credential and every attempt raising a non-500 hard-rotate error,
download_one_post still performs plain backoff retries up to the per-item
cap MAX_RETRIES_POST = 2 and then returns a non-fatal failure
(ok = some false), having slept the plain backoff delay of attempt 1. -/
theorem spec_C5 :
    rotate_on_error 1 = false ∧
    (∀ n, 1 < n → rotate_on_error n = true) ∧
    (∀ outcome : Nat → FetchOutcome,
      (∀ a, outcome a = .hardError false false) →
      download_one_post 1 outcome =
        ⟨some false, 2, [safe_sleep_backoff_delay 1]⟩) := by
  refine ⟨rfl, ?_, ?_⟩
  · intro n hn
    simp [rotate_on_error]
    omega
  · intro outcome h
    have hr : List.range' 1 MAX_RETRIES_POST = [1, 2] := rfl
    simp only [download_one_post, hr, postAttemptLoop, h 1, h 2, rotate_on_error]
    norm_num [MAX_RETRIES_POST]

/-- C5 witness: the single-credential retry behaviour at the concrete
all-hard-errors outcome sequence. -/
theorem spec_C5_witness :
    rotate_on_error 2 = true ∧
    download_one_post 1 outcomeHard =
      ⟨some false, 2, [safe_sleep_backoff_delay 1]⟩ :=
  ⟨spec_C5.2.1 2 (by decide), spec_C5.2.2 outcomeHard (fun a => rfl)⟩

/-- C1: duplicate guard.  For every ledger and every item with trimmed
nonempty identifiers (as produced by get_post_identifiers), the guard
already_logged_post returns true exactly when some recorded filename
starts with the item's basename or contains its shortcode as a substring;
moreover, whenever the already-logged oracle answers true for a post, the
harvest loop does not pass that post to the downloader, and in particular
the concrete 2024-01-01 ledger scenario retrieves nothing and attempts no
download. -/
theorem spec_C1 :
    (∀ (ledger : List Str) (basename shortcode : Str),
      pyStrip basename = basename → basename ≠ [] →
      pyStrip shortcode = shortcode → shortcode ≠ [] →
      (already_logged_post ledger basename shortcode = true ↔
        (∃ n ∈ ledger, basename <+: n) ∨ (∃ n ∈ ledger, shortcode <:+: n))) ∧
    (∀ (env : Env) (marker : Option Ident) (st : IterState) (p : Post),
      env.logged p = true →
      (processPost env marker st p).1.attempted = st.attempted) ∧
    already_logged_post ledgerC1 basenameC1 shortcodeC1 = true ∧
    (download_posts_run envC1 fsEmpty "feed" [postC1]).1.attempted = [] ∧
    (download_posts_run envC1 fsEmpty "feed" [postC1]).1.count = 0 := by
  refine ⟨?_, ?_, by decide, by decide, by decide⟩
  · intro ledger basename shortcode hb hbne hs hsne
    simp only [already_logged_post, already_logged_by_basename,
      already_logged_by_shortcode, hb, hs, if_neg hbne, if_neg hsne,
      Bool.or_eq_true, List.any_eq_true, decide_eq_true_eq]
  · intro env marker st p h
    exact processPost_logged_attempted h

/-- C1 witness: the general equivalence instantiated at the claim's
concrete ledger and identifiers, and the no-attempt fact instantiated at
the concrete post. -/
theorem spec_C1_witness :
    (already_logged_post ledgerC1 basenameC1 shortcodeC1 = true ↔
      (∃ n ∈ ledgerC1, basenameC1 <+: n) ∨ (∃ n ∈ ledgerC1, shortcodeC1 <:+: n)) ∧
    (processPost envC1 none (initState none) postC1).1.attempted =
      (initState none).attempted :=
  ⟨spec_C1.1 ledgerC1 basenameC1 shortcodeC1 (by decide) (by decide)
      (by decide) (by decide),
   spec_C1.2.1 envC1 none (initState none) postC1 (by decide)⟩

/-- C2: marker monotonicity.  For every run of download_posts_iter (any
mode, any input sequence, any pattern of guard hits and download
outcomes), if a marker existed before the run then the marker after the
run is the same marker or a strictly greater one under the lexicographic
(timestamp, shortcode) order, and a run that downloads nothing leaves the
whole marker store untouched. -/
theorem spec_C2 (env : Env) (fs : MarkerStore) (kind : String)
    (posts : List Post) :
    ∀ m, load_marker fs (streamOfKind kind) = some m →
      (∃ m', load_marker (download_posts_run env fs kind posts).2
          (streamOfKind kind) = some m' ∧
          (m' = m ∨ identLtB m m' = true)) ∧
      ((download_posts_run env fs kind posts).1.downloadedThisRun = 0 →
        (download_posts_run env fs kind posts).2 = fs) := by
  intro m hm
  have hmne : m.1 ≠ [] := load_marker_ts_ne_nil hm
  simp only [download_posts_run, hm]
  generalize iterGo env (some m) posts (initState (some m)) = st
  unfold persistMarker
  by_cases hmode : env.mode = "daily" ∨ env.mode = "all"
  · rw [if_pos hmode]
    split
    next ms hms =>
      simp only [markerAdvanced]
      by_cases hg : (identLtB m ms && decide (0 < st.downloadedThisRun)) = true
      · rw [if_pos hg]
        obtain ⟨hlt, hdl⟩ := Bool.and_eq_true_iff.mp hg
        have hmsne : ms.1 ≠ [] := identLtB_ts_ne_nil hmne hlt
        constructor
        · refine ⟨ms, ?_, Or.inr hlt⟩
          rw [load_marker_save, if_neg hmsne]
          simp [pyOrEmpty]
        · intro h0
          rw [h0] at hdl
          simp at hdl
      · rw [if_neg hg]
        simp only [persistSeed]
        exact ⟨⟨m, hm, Or.inl rfl⟩, fun _ => trivial⟩
    next hms =>
      simp only [persistSeed]
      exact ⟨⟨m, hm, Or.inl rfl⟩, fun _ => trivial⟩
  · rw [if_neg hmode]
    exact ⟨⟨m, hm, Or.inl rfl⟩, fun _ => rfl⟩

/-- C2 witness: a daily run over an empty sequence with an existing marker
keeps the marker and leaves the store untouched. -/
theorem spec_C2_witness :
    load_marker fsMarker (streamOfKind "feed") = some markerIdent ∧
    (∃ m', load_marker (download_posts_run envNoDl fsMarker "feed" []).2
        (streamOfKind "feed") = some m' ∧
        (m' = markerIdent ∨ identLtB markerIdent m' = true)) ∧
    (download_posts_run envNoDl fsMarker "feed" []).2 = fsMarker :=
  have h := spec_C2 envNoDl fsMarker "feed" [] markerIdent (by decide)
  ⟨by decide, h.1, h.2 (by decide)⟩

/-- C3: early-stop streak.  In daily mode with the existing marker
(T, "abc"), on a newest-first sequence of ten items all with identity at
most the marker and with nothing newly downloaded this run, the harvester
consumes exactly CONSEC_SEEN_STOP = 8 items and stops, not all ten; and
the boundary block resets the consecutive-seen counter to zero on any item
whose identity is newer than the marker. -/
theorem spec_C3 :
    (download_posts_run envNoDl fsMarker "feed" postsC3).1.scanned = 8 ∧
    (download_posts_run envNoDl fsMarker "feed" postsC3).1.downloadedThisRun = 0 ∧
    postsC3.length = 10 ∧
    (∀ (st : IterState) (m ident : Ident), identLeB ident m = false →
      (boundaryStep true (some m) st ident).1.consecSeen = 0 ∧
      (boundaryStep true (some m) st ident).2 = false) := by
  refine ⟨by decide, by decide, by decide, ?_⟩
  intro st m ident h
  simp [boundaryStep, h]

/-- C3 witness: the reset clause at a concrete newer-than-marker identity. -/
theorem spec_C3_witness :
    identLeB (identOf postNew) markerIdent = false ∧
    (boundaryStep true (some markerIdent) (initState none)
      (identOf postNew)).1.consecSeen = 0 :=
  ⟨by decide,
   (spec_C3.2.2.2 (initState none) markerIdent (identOf postNew) (by decide)).1⟩

/-- C4: crossing-back immediate stop.  In daily mode with an existing
marker, once at least one item has been downloaded this run, the loop
breaks at the very next item whose identity is at most the marker,
whatever the consecutive-seen count; concretely, after one newer item is
downloaded the run stops at the second item of a four-item sequence. -/
theorem spec_C4 :
    (∀ (env : Env) (m : Ident) (st : IterState) (p : Post),
      env.mode = "daily" →
      post_passes_date_filter env.dateAfter env.dateBefore p.date = true →
      identLeB (identOf p) m = true →
      0 < st.downloadedThisRun →
      (processPost env (some m) st p).2 = true) ∧
    (download_posts_run envDlOk fsMarker "feed" postsC4).1.scanned = 2 ∧
    (download_posts_run envDlOk fsMarker "feed" postsC4).1.count = 1 ∧
    postsC4.length = 4 := by
  refine ⟨?_, by decide, by decide, by decide⟩
  intro env m st p hmode hf hle hdl
  have hd : (decide (env.mode = "daily")) = true := by simp [hmode]
  simp [processPost, hf, hd, boundaryStep, hle, hdl]

/-- C4 witness: the immediate stop at a concrete old item after a download
this run. -/
theorem spec_C4_witness :
    identLeB (identOf postOld) markerIdent = true ∧
    0 < stC4.downloadedThisRun ∧
    (processPost envDlOk (some markerIdent) stC4 postOld).2 = true :=
  ⟨by decide, by decide,
   spec_C4.1 envDlOk markerIdent stC4 postOld rfl (by decide) (by decide)
     (by decide)⟩

/-- C7: bulk-mode marker isolation.  In init (bulk) mode
download_posts_iter never stops early (it consumes the whole sequence),
never writes any marker file, and the content of the marker store has no
influence on the observable run: two runs over arbitrary stores agree on
every loop observable, including the list of posts handed to the
downloader and the returned counts. -/
theorem spec_C7 (env : Env) (fs1 fs2 : MarkerStore) (kind : String)
    (posts : List Post) (h : env.mode = "init") :
    (download_posts_run env fs1 kind posts).2 = fs1 ∧
    (download_posts_run env fs1 kind posts).1.scanned = posts.length ∧
    coreView (download_posts_run env fs1 kind posts).1 =
      coreView (download_posts_run env fs2 kind posts).1 ∧
    download_posts_iter env fs1 kind posts =
      download_posts_iter env fs2 kind posts := by
  have hnd : env.mode ≠ "daily" := by rw [h]; simp
  have hcore : coreView (download_posts_run env fs1 kind posts).1 =
      coreView (download_posts_run env fs2 kind posts).1 := by
    simp only [download_posts_run]
    exact iterGo_core_congr hnd posts rfl
  refine ⟨?_, ?_, hcore, ?_⟩
  · simp only [download_posts_run, persistMarker, h]
    simp
  · simp only [download_posts_run]
    rw [iterGo_scanned_nonDaily hnd]
    simp [initState]
  · simp only [download_posts_iter]
    have hcount := congrArg (fun t => t.1) hcore
    have hresc := congrArg (fun t => t.2.1) hcore
    simp only [coreView] at hcount hresc
    simp [hcount, hresc]

/-- C7 witness: an init-mode run over concrete stores writes nothing and
scans the full sequence. -/
theorem spec_C7_witness :
    (download_posts_run envInit fsEmpty "feed" postsC4).2 = fsEmpty ∧
    (download_posts_run envInit fsEmpty "feed" postsC4).1.scanned =
      postsC4.length :=
  have hh := spec_C7 envInit fsEmpty fsMarker "feed" postsC4 rfl
  ⟨hh.1, hh.2.1⟩

/-- C9: seed-from-disk on blocked probe.  When the feed probe failed, no
marker exists, and the on-disk metadata yields at least one derivable
identity, the feed block of process_profile writes the maximum derivable
identity as the marker without fetching the stream; when a marker already
exists, the blocked probe leaves the store untouched and fetches nothing. -/
theorem spec_C9 (env : Env) (fs : MarkerStore) (entries : List (Option Ident))
    (posts : List Post) :
    (load_marker fs "feed" = none →
      ∀ d, find_newest_from_disk entries = some d →
        process_profile_feed env fs false entries posts =
          (save_marker fs "feed" d.1 (some d.2), false) ∧
        d ∈ entries.filterMap id ∧
        (∀ y ∈ entries.filterMap id, identLtB d y = false)) ∧
    (∀ m, load_marker fs "feed" = some m →
      process_profile_feed env fs false entries posts = (fs, false)) := by
  constructor
  · intro hnone d hd
    have hspec := find_newest_go_spec entries none d
      (by simpa [find_newest_from_disk] using hd)
    refine ⟨?_, ?_, hspec.2.1⟩
    · simp [process_profile_feed, hnone, hd]
    · rcases hspec.1 with hmem | hacc
      · exact hmem
      · simp at hacc
  · intro m hm
    simp [process_profile_feed, hm]

/-- C9 witness: a blocked probe over an unseeded store and concrete disk
entries writes the newest derivable identity and performs no fetch. -/
theorem spec_C9_witness :
    process_profile_feed envInit fsEmpty false entriesC9 [] =
      (save_marker fsEmpty "feed" identC9.1 (some identC9.2), false) ∧
    identC9 ∈ entriesC9.filterMap id :=
  have h := (spec_C9 envInit fsEmpty entriesC9 []).1 rfl identC9 (by decide)
  ⟨h.1, h.2.1⟩
